import Mathlib

/-!
Shallow embedding of `src/apps/grid.py` (JCVI grid submission module):
the `GridProcess` job object (submission-command building and job-id
extraction), the `Grid` batch constructor, and the per-token template
expansion loop of the `run` action.  Python strings are modelled as Lean
`String` (lists of characters); Python falsiness of `None`, `0` and `""`
is modelled explicitly; `assert` failures and attribute errors on a
failed regex search are modelled with `Except`.
-/

namespace JcviGrid

/-- Characters removed by Python `str.strip()` (ASCII whitespace). -/
def isPySpace (c : Char) : Bool :=
  c == ' ' || c == '\t' || c == '\n' || c == '\x0d' || c == '\x0b' || c == '\x0c'

/-- Python `s.strip()`: drop leading and trailing whitespace. -/
def pyStrip (s : String) : String :=
  ⟨((s.data.dropWhile isPySpace).reverse.dropWhile isPySpace).reverse⟩

/-- `pat` occurs as a contiguous sublist of the given list
(Python `pat in s` on strings, at the character-list level). -/
def isSubL (pat : List Char) : List Char → Bool
  | [] => pat.isEmpty
  | c :: rest => pat.isPrefixOf (c :: rest) || isSubL pat rest

/-- Python `pat in s` for strings. -/
def containsSub (s pat : String) : Bool :=
  isSubL pat.data s.data

/-- Fuel-driven core of Python `s.replace(pat, r)` for a nonempty `pat`:
replace non-overlapping occurrences left to right.  One unit of fuel is
spent per step and every step consumes at least one character, so fuel
equal to the length of the list fully processes it. -/
def replaceFuel (pat r : List Char) : Nat → List Char → List Char
  | 0, s => s
  | _ + 1, [] => []
  | fuel + 1, c :: rest =>
    if pat.isPrefixOf (c :: rest) ∧ pat ≠ [] then
      r ++ replaceFuel pat r fuel (rest.drop (pat.length - 1))
    else
      c :: replaceFuel pat r fuel rest

/-- Python `s.replace(pat, r)` (as used in the source: `pat` nonempty). -/
def pyReplace (s pat r : String) : String :=
  ⟨replaceFuel pat.data r.data s.data.length s.data⟩

/-- Python `os.path.split(p)` (posix): split at the last `/`; the head
keeps no trailing slashes unless it consists only of slashes. -/
def splitPath (p : String) : String × String :=
  let l := p.data
  let tail := (l.reverse.takeWhile (fun c => c ≠ '/')).reverse
  let head := l.take (l.length - tail.length)
  let head := if head.all (fun c => c == '/') then head
              else (head.reverse.dropWhile (fun c => c == '/')).reverse
  (⟨head⟩, ⟨tail⟩)

/-- Python `os.path.join(a, b)` (posix, two arguments). -/
def joinPath (a b : String) : String :=
  if b.data.head? = some '/' then b
  else if a = "" ∨ a.data.getLast? = some '/' then a ++ b
  else a ++ "/" ++ b

/-- Python `s.rsplit(".", 1)[0]`: everything before the last dot,
or `s` itself when it has no dot. -/
def rsplitDotFirst (s : String) : String :=
  if s.data.contains '.' then
    ⟨((s.data.reverse.dropWhile (fun c => c ≠ '.')).drop 1).reverse⟩
  else s

/-- Python `s.split(".")[0]`: everything before the first dot,
or `s` itself when it has no dot. -/
def splitDotHead (s : String) : String :=
  ⟨s.data.takeWhile (fun c => c ≠ '.')⟩

/-- Python `s.split(">", 1)` under the assumption that `>` occurs:
the part before the first `>` and the part after it. -/
def splitGtOnce (s : String) : String × String :=
  (⟨s.data.takeWhile (fun c => c ≠ '>')⟩,
   ⟨(s.data.dropWhile (fun c => c ≠ '>')).drop 1⟩)

/-- Decimal digits of `n`, most significant first, accumulated onto
`acc`; models the digit loop of Python `str(n)` with explicit fuel. -/
def pyStrNatAux : Nat → Nat → List Char → List Char
  | 0, _, acc => acc
  | fuel + 1, n, acc =>
    let acc' := Char.ofNat (48 + n % 10) :: acc
    if n < 10 then acc' else pyStrNatAux fuel (n / 10) acc'

/-- Python `str(n)` for a natural number. -/
def pyStrNat (n : Nat) : String :=
  ⟨pyStrNatAux (n + 1) n []⟩

/-- Project code constant `PCODE` of the module. -/
def PCODE : String := "04048"

/-- The state of a `GridProcess` object right after `__init__`
(the derived field `self.pat` is recovered by `patOf` below, since
`arr` is never mutated). -/
structure GridProcess where
  cmd : String
  jobid : String := ""
  queue : String := "default"
  threaded : Option Int := none
  infile : Option String := none
  outfile : Option String := none
  errfile : Option String := none
  arr : Option Int := none
deriving DecidableEq, Repr

/-- Python truthiness of an optional string (`None` and `""` are falsy). -/
def optStrT : Option String → Bool
  | none => false
  | some s => s ≠ ""

/-- Python truthiness of an optional integer (`None` and `0` are falsy). -/
def optIntT : Option Int → Bool
  | none => false
  | some n => n ≠ 0

/-- The two compiled response patterns of `GridProcess`. -/
inductive Pat
  | pat1
  | pat2
deriving DecidableEq, Repr

/-- `self.pat = self.pat2 if arr else self.pat1` in `__init__`. -/
def patOf (arr : Option Int) : Pat :=
  if optIntT arr then .pat2 else .pat1

/-- The shell-command wrapping at the top of `GridProcess.build`:
commands with a pipe or logical connective become `sh -c <quoted>`. -/
def wrapShell (cmd : String) : String :=
  if containsSub cmd "|" || containsSub cmd "&&" || containsSub cmd "||" then
    let quote := if containsSub cmd "\x27" then "\"" else "\x27"
    "sh -c " ++ quote ++ cmd ++ quote
  else cmd

/-- `outfile and (outfile == errfile)` in `GridProcess.build`. -/
def redirectSame (g : GridProcess) : Bool :=
  optStrT g.outfile && decide (g.outfile = g.errfile)

/-- The I/O clauses appended at the end of `GridProcess.build`, one list
entry per `qsub +=` statement. -/
def ioParts (g : GridProcess) : List String :=
  let rs := redirectSame g
  (match g.infile with
   | some f => if f ≠ "" then [" -i " ++ f] else []
   | none => [])
  ++ (if rs then [" -j y"] else [])
  ++ (match g.outfile with
      | some f => if f ≠ "" then [" -o " ++ f] else []
      | none => [])
  ++ (match g.errfile with
      | some f => if f ≠ "" ∧ rs = false then [" -e " ++ f] else []
      | none => [])

/-- The initial pieces of the `qsub` string built by `GridProcess.build`
(base invocation, queue clause, threading clause), one list entry per
`qsub +=` statement, in source order. -/
def qsubHead (g : GridProcess) : List String :=
  ["qsub -P " ++ PCODE ++ " -cwd"]
  ++ (if g.queue ≠ "default" then [" -l " ++ g.queue] else [])
  ++ (match g.threaded with
      | some t => if t ≠ 0 then [" -pe threaded " ++ toString t] else []
      | none => [])

/-- The pieces of the `qsub` string built by `GridProcess.build`, one
list entry per `qsub +=` statement, in source order; the `assert
1 < self.arr < 100000` is an `AssertionError`. -/
def buildParts (g : GridProcess) : Except String (List String) :=
  match g.arr with
  | some a =>
    if a ≠ 0 then
      if 1 < a ∧ a < 100000 then
        .ok ((qsubHead g ++ [" -t 1-" ++ toString a]) ++ ioParts g)
      else .error "AssertionError"
    else .ok (qsubHead g ++ ioParts g)
  | none => .ok (qsubHead g ++ ioParts g)

/-- `GridProcess.build`: the submission command string, i.e. the joined
`qsub` pieces followed by a space and the (possibly shell-wrapped)
command. -/
def build (g : GridProcess) : Except String String :=
  (buildParts g).map (fun ps => String.join ps ++ " " ++ wrapShell g.cmd)

/-- Attempted match of `pat1 = "Your job (?P<id>[0-9]*) "` anchored at
the head of the list: the literal, a greedy digit run, then a space;
returns the captured digit run. -/
def pat1MatchAt (l : List Char) : Option (List Char) :=
  if ("Your job ".data).isPrefixOf l then
    let rest := l.drop 9
    let ds := rest.takeWhile Char.isDigit
    match rest.drop ds.length with
    | ' ' :: _ => some ds
    | _ => none
  else none

/-- Attempted match of `pat2 = "Your job-array (?P<id>\S*) "` anchored
at the head of the list. -/
def pat2MatchAt (l : List Char) : Option (List Char) :=
  if ("Your job-array ".data).isPrefixOf l then
    let rest := l.drop 15
    let ds := rest.takeWhile (fun c => !isPySpace c)
    match rest.drop ds.length with
    | ' ' :: _ => some ds
    | _ => none
  else none

/-- Anchored match of either pattern. -/
def patMatchAt : Pat → List Char → Option (List Char)
  | .pat1, l => pat1MatchAt l
  | .pat2, l => pat2MatchAt l

/-- `re.search`: try the anchored match at every position, leftmost
first. -/
def patSearchAux (p : Pat) : List Char → Option (List Char)
  | [] => none
  | c :: rest =>
    match patMatchAt p (c :: rest) with
    | some ds => some ds
    | none => patSearchAux p rest

/-- `re.search(self.pat, output)` followed by `.group("id")`. -/
def patSearch (p : Pat) (s : String) : Option String :=
  (patSearchAux p s.data).map (fun l => ⟨l⟩)

/-- The job-id assignment of `GridProcess.start`: on whitespace-only
output the sentinel `"-1"`; otherwise the searched group, where a
failed search (`None.group`) raises an `AttributeError`. -/
def startJobId (g : GridProcess) (output : String) : Except String String :=
  if pyStrip output ≠ "" then
    match patSearch (patOf g.arr) output with
    | some i => .ok i
    | none => .error "AttributeError"
  else .ok "-1"

/-- `Grid.__init__`: assert the command list nonempty, default the
outfile list to `None`s, and zip commands with outfiles into
`GridProcess` objects. -/
def gridInit (cmds : List String) (outfiles : List String) :
    Except String (List GridProcess) :=
  if cmds = [] then .error "Commands empty!"
  else
    let ofs : List (Option String) :=
      if outfiles = [] then List.replicate cmds.length none else outfiles.map some
    .ok ((cmds.zip ofs).map (fun p => { cmd := p.1, outfile := p.2 }))

/-- Lines 237-240 of `run`: substitute `{}` when the template contains
a `{`, otherwise append the token after a space. -/
def substBraceStep (ncmd filename : String) : String :=
  if containsSub ncmd "\x7b" then pyReplace ncmd "\x7b\x7d" filename
  else ncmd ++ " " ++ filename

/-- The first six placeholder substitutions of one iteration of the
loop in `run`, in source order. -/
def substPre (cmd filename : String) : String :=
  let noextname := rsplitDotFirst filename
  let pb := splitPath filename
  let basename := pb.2
  let basenoextname := rsplitDotFirst basename
  let basefirstname := splitDotHead basename
  let firstname := joinPath pb.1 basefirstname
  let ncmd := substBraceStep cmd filename
  let ncmd := pyReplace ncmd "\x7b.\x7d" noextname
  let ncmd := pyReplace ncmd "\x7b_\x7d" firstname
  let ncmd := pyReplace ncmd "\x7b/\x7d" basename
  let ncmd := pyReplace ncmd "\x7b/.\x7d" basenoextname
  pyReplace ncmd "\x7b/_\x7d" basefirstname

/-- The placeholder substitutions of one iteration of the loop in
`run`, in source order (`\x7b#\x7d` last). -/
def substPlaceholders (cmd filename : String) (i : Nat) : String :=
  pyReplace (substPre cmd filename) "\x7b#\x7d" (pyStrNat i)

/-- One iteration of the loop in `run`: strip the token, expand the
placeholders, split off an output file at the first `>`, and construct
the `GridProcess` handed to `start`. -/
def expandOne (cmd queue : String) (threaded : Option Int) (i : Nat)
    (token : String) : GridProcess :=
  let filename := pyStrip token
  let ncmd := substPlaceholders cmd filename i
  let co :=
    if containsSub ncmd ">" then
      let p := splitGtOnce ncmd
      (pyStrip p.1, some (pyStrip p.2))
    else (ncmd, none)
  { cmd := pyStrip co.1, queue := queue, threaded := threaded, outfile := co.2 }

/-- Template used in the placeholder round-trip scenario: every
placeholder token once, separated by spaces. -/
def c8template : String :=
  "\x7b\x7d \x7b.\x7d \x7b_\x7d \x7b/\x7d \x7b/.\x7d \x7b/_\x7d \x7b#\x7d"

/-- Expected expansion of `c8template` against `t/example.tar.gz`, up to
the sequence-number placeholder. -/
def c8expected : String :=
  "t/example.tar.gz t/example.tar t/example example.tar.gz example.tar example "

/-- A `qsub` piece that is neither the combined-redirection clause nor
an error-redirection clause. -/
def goodClause (c : String) : Prop :=
  c ≠ " -j y" ∧ (" -e ".data).isPrefixOf c.data = false

theorem isSubL_head_of_pair {a b : Char} : ∀ {l : List Char},
    isSubL [a, b] l = true → isSubL [a] l = true := by
  intro l h
  induction l with
  | nil => simp [isSubL] at h
  | cons c rest ih =>
    simp only [isSubL, List.isPrefixOf, Bool.or_eq_true, Bool.and_eq_true] at h ⊢
    rcases h with ⟨h1, _⟩ | h
    · exact Or.inl ⟨h1, trivial⟩
    · exact Or.inr (ih h)

theorem contains_brace_of_pair {t : String}
    (h : containsSub t "\x7b\x7d" = true) : containsSub t "\x7b" = true :=
  isSubL_head_of_pair h

theorem lClause_ne (q : String) : " -l " ++ q ≠ " -j y" := by
  intro h; have h2 := congrArg String.data h; simp at h2

theorem peClause_ne (q : String) : " -pe threaded " ++ q ≠ " -j y" := by
  intro h; have h2 := congrArg String.data h; simp at h2

theorem tClause_ne (q : String) : " -t 1-" ++ q ≠ " -j y" := by
  intro h; have h2 := congrArg String.data h; simp at h2

theorem iClause_ne (q : String) : " -i " ++ q ≠ " -j y" := by
  intro h; have h2 := congrArg String.data h; simp at h2

theorem oClause_ne (q : String) : " -o " ++ q ≠ " -j y" := by
  intro h; have h2 := congrArg String.data h; simp at h2

theorem ePre_l (q : String) : (" -e ".data).isPrefixOf ((" -l " ++ q).data) = false := rfl

theorem ePre_pe (q : String) :
    (" -e ".data).isPrefixOf ((" -pe threaded " ++ q).data) = false := rfl

theorem ePre_t (q : String) : (" -e ".data).isPrefixOf ((" -t 1-" ++ q).data) = false := rfl

theorem ePre_i (q : String) : (" -e ".data).isPrefixOf ((" -i " ++ q).data) = false := rfl

theorem ePre_o (q : String) : (" -e ".data).isPrefixOf ((" -o " ++ q).data) = false := rfl

theorem qsubHead_good (g : GridProcess) : ∀ c ∈ qsubHead g, goodClause c := by
  intro c hc
  simp only [qsubHead, List.mem_append, List.mem_singleton] at hc
  rcases hc with (hc | hc) | hc
  · subst hc; exact ⟨by decide, rfl⟩
  · have hcq : c = " -l " ++ g.queue := by
      revert hc; split
      · simp
      · simp
    subst hcq; exact ⟨lClause_ne _, ePre_l _⟩
  · rcases ht : g.threaded with _ | t
    · simp only [ht] at hc; simp at hc
    · simp only [ht] at hc
      revert hc
      split
      · intro hc
        rcases List.mem_singleton.mp hc with rfl
        exact ⟨peClause_ne _, ePre_pe _⟩
      · intro hc; simp at hc

theorem count_zero_of_good (l : List String) (h : ∀ c ∈ l, goodClause c) :
    List.count " -j y" l = 0 :=
  List.count_eq_zero.mpr (fun hm => (h _ hm).1 rfl)

theorem map_fst_zip_eq_take {α β : Type} :
    ∀ (l1 : List α) (l2 : List β), (l1.zip l2).map Prod.fst = l1.take l2.length
  | [], _ => by simp
  | _ :: _, [] => by simp
  | a :: l1, b :: l2 => by
    simp only [List.zip_cons_cons, List.map_cons, List.length_cons, List.take_succ_cons]
    rw [map_fst_zip_eq_take l1 l2]

theorem replaceFuel_nil (pat r : List Char) : ∀ f, replaceFuel pat r f [] = []
  | 0 => rfl
  | _ + 1 => rfl

theorem isPrefixOf_self (l : List Char) : l.isPrefixOf l = true := by
  induction l with
  | nil => rfl
  | cons c cs ih => simp [List.isPrefixOf, ih]

theorem replaceFuel_single_tail (pat r : List Char) (hpat : pat ≠ []) :
    ∀ pre : List Char,
      (∀ n, n < pre.length → pat.isPrefixOf ((pre ++ pat).drop n) = false) →
      replaceFuel pat r (pre ++ pat).length (pre ++ pat) = pre ++ r := by
  intro pre
  induction pre with
  | nil =>
    intro _
    rcases hp : pat with _ | ⟨c, cs⟩
    · exact absurd hp hpat
    · simp only [List.nil_append, List.length_cons, replaceFuel]
      rw [if_pos ⟨isPrefixOf_self _, by simp⟩]
      simp [Nat.add_sub_cancel, List.drop_length, replaceFuel_nil]
  | cons c pre ih =>
    intro hocc
    have h0 : pat.isPrefixOf (c :: (pre ++ pat)) = false := by
      have := hocc 0 (by simp)
      simpa using this
    simp only [List.cons_append, List.length_cons, replaceFuel, List.append_eq]
    rw [if_neg (by rw [h0]; simp)]
    rw [ih (fun n hn => by
      have := hocc (n + 1) (by simpa using Nat.succ_lt_succ hn)
      simpa using this)]

theorem isSubL_single_false_iff (c : Char) :
    ∀ l : List Char, (isSubL [c] l = false ↔ ∀ x ∈ l, ¬ x = c) := by
  intro l
  induction l with
  | nil => simp [isSubL]
  | cons a rest ih =>
    simp only [isSubL, List.isPrefixOf, Bool.or_eq_false_iff, Bool.and_eq_false_iff,
      List.mem_cons, ih]
    constructor
    · rintro ⟨h1, h2⟩ x (rfl | hx)
      · rcases h1 with h1 | h1
        · intro he; subst he; simp at h1
        · simp [List.isPrefixOf] at h1
      · exact h2 x hx
    · rintro h
      refine ⟨Or.inl ?_, fun x hx => h x (Or.inr hx)⟩
      have := h a (Or.inl rfl)
      simp [beq_eq_false_iff_ne]
      intro he; exact this he.symm

theorem pyStrNatAux_digits (fuel : Nat) : ∀ (n : Nat) (acc : List Char),
    (∀ c ∈ acc, ∃ k, k < 10 ∧ c = Char.ofNat (48 + k)) →
    ∀ c ∈ pyStrNatAux fuel n acc, ∃ k, k < 10 ∧ c = Char.ofNat (48 + k) := by
  induction fuel with
  | zero => intro n acc hacc; simpa [pyStrNatAux] using hacc
  | succ fuel ih =>
    intro n acc hacc
    have hacc2 : ∀ c ∈ (Char.ofNat (48 + n % 10) :: acc),
        ∃ k, k < 10 ∧ c = Char.ofNat (48 + k) := by
      intro c hc
      rcases List.mem_cons.mp hc with rfl | hc
      · exact ⟨n % 10, Nat.mod_lt _ (by norm_num), rfl⟩
      · exact hacc c hc
    simp only [pyStrNatAux]
    split
    · exact hacc2
    · exact ih (n / 10) _ hacc2

theorem pyStrNat_digits (n : Nat) :
    ∀ c ∈ (pyStrNat n).data, ∃ k, k < 10 ∧ c = Char.ofNat (48 + k) :=
  pyStrNatAux_digits (n + 1) n [] (by simp)

theorem digit_not_space_gt {c : Char} (h : ∃ k, k < 10 ∧ c = Char.ofNat (48 + k)) :
    isPySpace c = false ∧ ¬ c = '>' := by
  obtain ⟨k, hk, rfl⟩ := h
  interval_cases k <;> exact ⟨rfl, by decide⟩

theorem pyStrNatAux_len (fuel : Nat) : ∀ (n : Nat) (acc : List Char),
    acc.length ≤ (pyStrNatAux fuel n acc).length := by
  induction fuel with
  | zero => intro n acc; simp [pyStrNatAux]
  | succ fuel ih =>
    intro n acc
    simp only [pyStrNatAux]
    split
    · simp
    · calc acc.length ≤ (Char.ofNat (48 + n % 10) :: acc).length := by simp
        _ ≤ _ := ih (n / 10) _

theorem pyStrNat_ne_nil (n : Nat) : (pyStrNat n).data ≠ [] := by
  apply List.ne_nil_of_length_pos
  show 0 < (pyStrNatAux (n + 1) n []).length
  simp only [pyStrNatAux]
  split
  · simp
  · calc 0 < (Char.ofNat (48 + n % 10) :: ([] : List Char)).length := by simp
      _ ≤ _ := pyStrNatAux_len n (n / 10) _

theorem dropWhile_eq_self_of_head (p : Char → Bool) (l : List Char)
    (h : ∀ hd ∈ l.head?, p hd = false) : l.dropWhile p = l := by
  cases l with
  | nil => rfl
  | cons a t => rw [List.dropWhile_cons, h a rfl]; simp

theorem pyStrip_eq_self (s : String)
    (h1 : ∀ hd ∈ s.data.head?, isPySpace hd = false)
    (h2 : ∀ lst ∈ s.data.getLast?, isPySpace lst = false) :
    pyStrip s = s := by
  unfold pyStrip
  rw [dropWhile_eq_self_of_head _ _ h1]
  rw [dropWhile_eq_self_of_head _ _ (fun hd hm =>
    h2 hd (by rwa [List.head?_reverse] at hm))]
  rw [List.reverse_reverse]

theorem c8_substPre :
    substPre c8template "t/example.tar.gz" = c8expected ++ "\x7b#\x7d" := by decide

theorem c8_data :
    (c8expected ++ "\x7b#\x7d").data = c8expected.data ++ ("\x7b#\x7d" : String).data := by
  decide

theorem c8_subst (i : Nat) :
    substPlaceholders c8template "t/example.tar.gz" i = c8expected ++ pyStrNat i := by
  rw [substPlaceholders, c8_substPre]
  apply String.ext
  show (pyReplace (c8expected ++ "\x7b#\x7d") "\x7b#\x7d" (pyStrNat i)).data
      = (c8expected ++ pyStrNat i).data
  rw [String.data_append]
  show replaceFuel ("\x7b#\x7d" : String).data (pyStrNat i).data
      (c8expected ++ "\x7b#\x7d").data.length (c8expected ++ "\x7b#\x7d").data
      = c8expected.data ++ (pyStrNat i).data
  rw [c8_data]
  exact replaceFuel_single_tail _ _ (by decide) c8expected.data (by decide)

theorem c8_nogt (i : Nat) : containsSub (c8expected ++ pyStrNat i) ">" = false := by
  rw [containsSub, String.data_append]
  have hp : (">" : String).data = ['>'] := rfl
  rw [hp, isSubL_single_false_iff]
  intro x hx
  rcases List.mem_append.mp hx with hx | hx
  · exact (by decide : ∀ x ∈ c8expected.data, ¬ x = '>') x hx
  · exact (digit_not_space_gt (pyStrNat_digits i x hx)).2

theorem c8_strip (i : Nat) :
    pyStrip (c8expected ++ pyStrNat i) = c8expected ++ pyStrNat i := by
  apply pyStrip_eq_self
  · intro hd hm
    rw [String.data_append, List.head?_append] at hm
    have hpre : c8expected.data.head? = some 't' := by decide
    rw [hpre] at hm
    simp at hm
    subst hm
    decide
  · intro lst hm
    rw [String.data_append, List.getLast?_append] at hm
    rcases hr : (pyStrNat i).data.getLast? with _ | x
    · exact absurd (List.getLast?_eq_none_iff.mp hr) (pyStrNat_ne_nil i)
    · rw [hr] at hm
      simp at hm
      subst hm
      have hx : x ∈ (pyStrNat i).data := List.mem_of_mem_getLast? (by rw [hr]; rfl)
      exact (digit_not_space_gt (pyStrNat_digits i x hx)).1

/-- C1 counterexample: the template `touch \x7b.\x7d.log` does not contain
the two-character placeholder, yet the raw token is NOT appended (the
code tests for a single `\x7b`), so the token is silently dropped. -/
theorem brace_append_cex :
    containsSub "touch \x7b.\x7d.log" "\x7b\x7d" = false ∧
    substBraceStep "touch \x7b.\x7d.log" "a.b" ≠ "touch \x7b.\x7d.log" ++ " " ++ "a.b" ∧
    (expandOne "touch \x7b.\x7d.log" "default" none 0 "a.b").cmd = "touch a.log" := by
  decide

/-- C1 (amended): the branch in `run` is selected by the presence of the
single character `\x7b`, not of the two-character placeholder: whenever the
template contains `\x7b` (in particular whenever it contains `\x7b\x7d`) every
occurrence of `\x7b\x7d` is replaced by the raw token, and only a template
with no `\x7b` at all gets the raw token appended after a space. -/
theorem brace_subst_rule (t tok : String) :
    (containsSub t "\x7b\x7d" = true → substBraceStep t tok = pyReplace t "\x7b\x7d" tok) ∧
    (containsSub t "\x7b" = true → substBraceStep t tok = pyReplace t "\x7b\x7d" tok) ∧
    (containsSub t "\x7b" = false → substBraceStep t tok = t ++ " " ++ tok) := by
  refine ⟨fun h => ?_, fun h => ?_, fun h => ?_⟩
  · simp [substBraceStep, contains_brace_of_pair h]
  · simp [substBraceStep, h]
  · simp [substBraceStep, h]

/-- Witness for `brace_subst_rule` at concrete templates. -/
theorem brace_subst_rule_witness :
    substBraceStep "echo \x7b\x7d" "f.txt" = pyReplace "echo \x7b\x7d" "\x7b\x7d" "f.txt" ∧
    substBraceStep "echo" "f.txt" = "echo" ++ " " ++ "f.txt" :=
  ⟨(brace_subst_rule "echo \x7b\x7d" "f.txt").1 (by decide),
   (brace_subst_rule "echo" "f.txt").2.2 (by decide)⟩

/-- C2 counterexample: `arraySize = 0` violates `1 < arr < 100000` but is
falsy in Python, so `build` succeeds (no assertion, no array clause). -/
theorem build_arr_zero_no_failure :
    build { cmd := "ls", arr := some 0 } = .ok "qsub -P 04048 -cwd ls" := rfl

/-- C2 (amended): for every NONZERO arraySize outside the bounds
`1 < arraySize < 100000`, building the submission command fails fast with
an assertion-style fatal error; `arraySize = 0` is falsy and skips both
the validation and the array clause. -/
theorem build_arr_invalid_fatal (g : GridProcess) (a : Int)
    (ha : g.arr = some a) (h0 : a ≠ 0) (hb : ¬(1 < a ∧ a < 100000)) :
    build g = .error "AssertionError" := by
  simp [build, buildParts, Except.map, ha, h0, hb]

/-- Witness for `build_arr_invalid_fatal` at `arraySize = 100000`. -/
theorem build_arr_invalid_fatal_witness :
    build { cmd := "ls", arr := some 100000 } = .error "AssertionError" :=
  build_arr_invalid_fatal _ 100000 rfl (by decide) (by decide)

/-- C3 counterexample: a `run` command with a `>` redirection yields a
job with a non-empty output file whose error file is `None`, not equal
to the output file. -/
theorem run_redirect_errfile_mismatch :
    containsSub (substPlaceholders "cat \x7b\x7d > out.txt" "f" 0) ">" = true ∧
    (expandOne "cat \x7b\x7d > out.txt" "default" none 0 "f").outfile = some "out.txt" ∧
    (expandOne "cat \x7b\x7d > out.txt" "default" none 0 "f").errfile ≠
      (expandOne "cat \x7b\x7d > out.txt" "default" none 0 "f").outfile := by
  decide

/-- C3 (amended): every JobSpec created by the `run` template expander
has its errorFile unset (`None`), whether or not the finalized command
contained a `>` redirection; `run` never requests combined-stream
redirection (only the `array` action passes `errfile = outfile`). -/
theorem run_errfile_none (cmd queue : String) (threaded : Option Int) (i : Nat)
    (token : String) : (expandOne cmd queue threaded i token).errfile = none := rfl

/-- C4: for every JobSpec with equal non-empty output and error files,
the built clause list contains the combined-redirection clause `-j y`
exactly once and no clause is an error-redirection (` -e `) clause. -/
theorem build_combined_redirect_once (g : GridProcess) (f : String) (ps : List String)
    (hf : f ≠ "") (ho : g.outfile = some f) (he : g.errfile = some f)
    (hps : buildParts g = .ok ps) :
    List.count " -j y" ps = 1 ∧
    ∀ c ∈ ps, (" -e ".data).isPrefixOf c.data = false := by
  have hrs : redirectSame g = true := by
    simp [redirectSame, optStrT, ho, he, hf]
  have hio : ioParts g = (match g.infile with
      | some fi => if fi ≠ "" then [" -i " ++ fi] else []
      | none => []) ++ ([" -j y"] ++ [" -o " ++ f]) := by
    simp [ioParts, hrs, ho, he, hf]
  have hinfGood : ∀ c ∈ (match g.infile with
      | some fi => if fi ≠ "" then [" -i " ++ fi] else []
      | none => []), goodClause c := by
    intro c hc
    rcases hi : g.infile with _ | fi
    · simp only [hi] at hc; simp at hc
    · simp only [hi] at hc
      revert hc
      split
      · intro hc
        rcases List.mem_singleton.mp hc with rfl
        exact ⟨iClause_ne _, ePre_i _⟩
      · intro hc; simp at hc
  have hioCount : List.count " -j y" (ioParts g) = 1 := by
    rw [hio, List.count_append, List.count_append]
    rw [count_zero_of_good _ hinfGood]
    have h1 : List.count " -j y" ([" -j y"] : List String) = 1 := by simp
    have h0 : List.count " -j y" [" -o " ++ f] = 0 := by
      apply count_zero_of_good
      intro c hc
      rcases List.mem_singleton.mp hc with rfl
      exact ⟨oClause_ne _, ePre_o _⟩
    omega
  have hioPre : ∀ c ∈ ioParts g, (" -e ".data).isPrefixOf c.data = false := by
    rw [hio]
    intro c hc
    rcases List.mem_append.mp hc with hc | hc
    · exact (hinfGood c hc).2
    · rcases List.mem_append.mp hc with hc | hc
      · rcases List.mem_singleton.mp hc with rfl; decide
      · rcases List.mem_singleton.mp hc with rfl; exact ePre_o _
  have hform : ps = qsubHead g ++ ioParts g ∨
      ∃ a : Int, ps = (qsubHead g ++ [" -t 1-" ++ toString a]) ++ ioParts g := by
    rcases harr : g.arr with _ | a
    · simp only [buildParts, harr] at hps
      exact Or.inl (Except.ok.inj hps).symm
    · simp only [buildParts, harr] at hps
      split at hps
      · split at hps
        · exact Or.inr ⟨a, (Except.ok.inj hps).symm⟩
        · cases hps
      · exact Or.inl (Except.ok.inj hps).symm
  have main : ∀ pre : List String, (∀ c ∈ pre, goodClause c) →
      List.count " -j y" (pre ++ ioParts g) = 1 ∧
      ∀ c ∈ pre ++ ioParts g, (" -e ".data).isPrefixOf c.data = false := by
    intro pre hpre
    constructor
    · rw [List.count_append, count_zero_of_good pre hpre, hioCount]
    · intro c hc
      rcases List.mem_append.mp hc with hc | hc
      · exact (hpre c hc).2
      · exact hioPre c hc
  rcases hform with rfl | ⟨a, rfl⟩
  · exact main _ (qsubHead_good g)
  · refine main _ ?_
    intro c hc
    rcases List.mem_append.mp hc with hc | hc
    · exact qsubHead_good g c hc
    · rcases List.mem_singleton.mp hc with rfl
      exact ⟨tClause_ne _, ePre_t _⟩

/-- Witness for `build_combined_redirect_once` on a concrete job. -/
theorem build_combined_redirect_once_witness :
    List.count " -j y" ["qsub -P 04048 -cwd", " -j y", " -o o.txt"] = 1 ∧
    ∀ c ∈ ["qsub -P 04048 -cwd", " -j y", " -o o.txt"],
      (" -e ".data).isPrefixOf c.data = false :=
  build_combined_redirect_once
    { cmd := "x", outfile := some "o.txt", errfile := some "o.txt" }
    "o.txt" _ (by decide) rfl rfl (by rfl)

/-- C5 counterexample: `arraySize = 0` is set but falsy, so the SCALAR
pattern is selected, not the array pattern. -/
theorem patsel_arr_zero : patOf (some 0) ≠ Pat.pat2 := by decide

/-- C5 (amended): identifier extraction selects the scalar pattern when
arraySize is unset OR zero and the array pattern when set nonzero, and
yields `12345` resp. `67` on the two scenario outputs. -/
theorem patsel_extraction :
    patOf none = Pat.pat1 ∧ patOf (some 0) = Pat.pat1 ∧
    (∀ n : Int, n ≠ 0 → patOf (some n) = Pat.pat2) ∧
    startJobId { cmd := "c" } "Your job 12345 (...) has been submitted" = .ok "12345" ∧
    startJobId { cmd := "c", arr := some 67 }
      "Your job-array 67 (...) has been submitted" = .ok "67" := by
  refine ⟨rfl, rfl, fun n hn => ?_, rfl, rfl⟩
  simp [patOf, optIntT, hn]

/-- Witness for `patsel_extraction` at a concrete nonzero array size. -/
theorem patsel_extraction_witness : patOf (some 67) = Pat.pat2 :=
  patsel_extraction.2.2.1 67 (by decide)

/-- C6: whitespace-only submission output yields the sentinel job id
`-1` without error; non-empty output matching neither response pattern
propagates an error (`AttributeError` on the failed search). -/
theorem start_soft_and_hard :
    (∀ (g : GridProcess) (out : String), pyStrip out = "" →
      startJobId g out = .ok "-1") ∧
    (∀ (g : GridProcess) (out : String), pyStrip out ≠ "" →
      patSearch Pat.pat1 out = none → patSearch Pat.pat2 out = none →
      startJobId g out = .error "AttributeError") := by
  constructor
  · intro g out h
    simp [startJobId, h]
  · intro g out h h1 h2
    have hs : patSearch (patOf g.arr) out = none := by
      cases patOf g.arr
      · exact h1
      · exact h2
    simp [startJobId, h, hs]

/-- Witness for `start_soft_and_hard` on concrete outputs. -/
theorem start_soft_and_hard_witness :
    startJobId { cmd := "c" } " \n " = .ok "-1" ∧
    startJobId { cmd := "c" } "qsub: command not found" = .error "AttributeError" :=
  ⟨start_soft_and_hard.1 _ _ (by decide),
   start_soft_and_hard.2 _ _ (by decide) (by decide) (by decide)⟩

/-- C7: a command containing a pipe or logical connective, in which at
most one of the two quote characters occurs, is wrapped as
`sh -c <quoted>` with a quote character that does not occur in it, and
the single quote is chosen whenever it is absent from the command. -/
theorem shell_wrap_quote (cmd : String)
    (hsh : containsSub cmd "|" = true ∨ containsSub cmd "&&" = true ∨
      containsSub cmd "||" = true)
    (hq : ¬(containsSub cmd "\x27" = true ∧ containsSub cmd "\"" = true)) :
    ∃ q : String, (q = "\x27" ∨ q = "\"") ∧ containsSub cmd q = false ∧
      wrapShell cmd = "sh -c " ++ q ++ cmd ++ q ∧
      (containsSub cmd "\x27" = false → q = "\x27") := by
  have hcond : (containsSub cmd "|" || containsSub cmd "&&" || containsSub cmd "||") = true := by
    rcases hsh with h | h | h <;> simp [h]
  by_cases hq1 : containsSub cmd "\x27" = true
  · have hq2 : containsSub cmd "\"" = false := by
      rcases h2 : containsSub cmd "\"" with _ | _
      · rfl
      · exact absurd ⟨hq1, h2⟩ hq
    refine ⟨"\"", Or.inr rfl, hq2, ?_, fun h => absurd h (by simp [hq1])⟩
    simp [wrapShell, hcond, hq1]
  · refine ⟨"\x27", Or.inl rfl, by simpa using hq1, ?_, fun _ => rfl⟩
    simp only [wrapShell, hcond, if_true]
    rw [if_neg (by simpa using hq1)]

/-- Witness for `shell_wrap_quote` on `cmdA | cmdB`. -/
theorem shell_wrap_quote_witness :
    ∃ q : String, (q = "\x27" ∨ q = "\"") ∧ containsSub "cmdA | cmdB" q = false ∧
      wrapShell "cmdA | cmdB" = "sh -c " ++ q ++ "cmdA | cmdB" ++ q ∧
      (containsSub "cmdA | cmdB" "\x27" = false → q = "\x27") :=
  shell_wrap_quote "cmdA | cmdB" (Or.inl (by decide)) (by decide)

/-- C8: expanding a template containing every placeholder token against
input `t/example.tar.gz` at sequence index `i` substitutes the raw
token, `t/example.tar`, `t/example`, `example.tar.gz`, `example.tar`,
`example`, and the decimal index, in that placeholder order. -/
theorem run_roundtrip_placeholders (i : Nat) :
    (expandOne "\x7b\x7d \x7b.\x7d \x7b_\x7d \x7b/\x7d \x7b/.\x7d \x7b/_\x7d \x7b#\x7d"
        "default" none i "t/example.tar.gz").cmd
      = "t/example.tar.gz t/example.tar t/example example.tar.gz example.tar example "
        ++ pyStrNat i := by
  show (expandOne c8template "default" none i "t/example.tar.gz").cmd
      = c8expected ++ pyStrNat i
  have hfile : pyStrip "t/example.tar.gz" = "t/example.tar.gz" := by decide
  simp only [expandOne, hfile, c8_subst, c8_nogt]
  simp [c8_strip]

/-- C9: constructing a Grid batch from an empty command list fails
immediately with the message `Commands empty!`, before any job object
is created or submitted. -/
theorem grid_empty_cmds_fatal (outfiles : List String) :
    gridInit [] outfiles = .error "Commands empty!" := rfl

/-- C10: with a non-empty outfile list shorter than the command list,
the batch holds exactly `min` many jobs and their commands are exactly
the first `len(outfiles)` commands — the remaining commands are
silently dropped. -/
theorem grid_truncates_to_outfiles (cmds outfiles : List String)
    (h1 : cmds ≠ []) (h2 : outfiles ≠ []) (h3 : outfiles.length < cmds.length) :
    ∃ l, gridInit cmds outfiles = .ok l ∧
      l.length = min cmds.length outfiles.length ∧
      l.map (fun g => g.cmd) = cmds.take outfiles.length := by
  refine ⟨(cmds.zip (outfiles.map some)).map
    (fun p => { cmd := p.1, outfile := p.2 }), ?_, ?_, ?_⟩
  · simp [gridInit, h1, h2]
  · simp
  · rw [List.map_map]
    have hcomp : ((fun g : GridProcess => g.cmd) ∘
        (fun p : String × Option String => { cmd := p.1, outfile := p.2 })) =
        Prod.fst := rfl
    rw [hcomp, map_fst_zip_eq_take, List.length_map]

/-- Witness for `grid_truncates_to_outfiles` on three commands and one
outfile. -/
theorem grid_truncates_to_outfiles_witness :
    ∃ l, gridInit ["a", "b", "c"] ["o"] = .ok l ∧
      l.length = min (["a", "b", "c"] : List String).length
        (["o"] : List String).length ∧
      l.map (fun g => g.cmd) = (["a", "b", "c"] : List String).take
        (["o"] : List String).length :=
  grid_truncates_to_outfiles ["a", "b", "c"] ["o"] (by decide) (by decide) (by decide)

end JcviGrid
